import Mathlib

/- Verification of the SecondBrain core: the classification gate
(second_brain/core/pipeline.py), the digest selector and conversational
webhook dispatch (second_brain/lambda_handler.py), and the JSON storage
update (second_brain/adapters/storage_json.py), shallowly embedded in Lean. -/

/-! ### Python dict / string primitives

Python `dict`s with string keys are embedded as ordered association lists
(`List (String × β)`): lookup takes the first binding, assignment replaces a
binding in place or appends at the end, exactly as in insertion-ordered
Python dicts whose keys are unique. -/

/-- Association-list lookup: the binding of key `k` (Python `d[k]` / `d.get(k)`). -/
def alFind? {β : Type} : List (String × β) → String → Option β
  | [], _ => none
  | (k', v) :: rest, k => if k' = k then some v else alFind? rest k

/-- Association-list lookup with a default (Python `d.get(k, dflt)`). -/
def alGetD {β : Type} (l : List (String × β)) (k : String) (dflt : β) : β :=
  (alFind? l k).getD dflt

/-- Association-list assignment (Python `d[k] = v`): replaces the binding in
place when the key is present, appends at the end otherwise. -/
def alSet {β : Type} : List (String × β) → String → β → List (String × β)
  | [], k, v => [(k, v)]
  | (k', v') :: rest, k, v =>
      if k' = k then (k, v) :: rest else (k', v') :: alSet rest k v

/-- Python `base.update(upd)`: fold every binding of `upd` into `base`. -/
def dictUpdate {β : Type} (base upd : List (String × β)) : List (String × β) :=
  upd.foldl (fun acc kv => alSet acc kv.1 kv.2) base

/-- Lookup that mirrors Python truthiness on string values: a missing key or
an empty-string value is falsy (`d.get(k)` used in an `or` chain). -/
def truthyFind? (l : List (String × String)) (k : String) : Option String :=
  match alFind? l k with
  | some v => if v = "" then none else some v
  | none => none

/-- Python `d.get(k1) or d.get(k2) or ""`. -/
def truthyGet2 (l : List (String × String)) (k1 k2 : String) : String :=
  match truthyFind? l k1 with
  | some v => v
  | none =>
    match truthyFind? l k2 with
    | some v => v
    | none => ""

theorem alFind?_alSet_self {β : Type} (l : List (String × β)) (k : String) (v : β) :
    alFind? (alSet l k v) k = some v := by
  induction l with
  | nil => simp [alSet, alFind?]
  | cons hd tl ih =>
    obtain ⟨k', v'⟩ := hd
    by_cases h : k' = k
    · simp [alSet, alFind?, h]
    · simp [alSet, alFind?, h, ih]

theorem alFind?_alSet_ne {β : Type} (l : List (String × β)) (k k' : String) (v : β)
    (h : k' ≠ k) : alFind? (alSet l k v) k' = alFind? l k' := by
  induction l with
  | nil =>
    simp only [alSet, alFind?]
    rw [if_neg (Ne.symm h)]
  | cons hd tl ih =>
    obtain ⟨k₀, v₀⟩ := hd
    simp only [alSet]
    by_cases h0 : k₀ = k
    · subst h0
      rw [if_pos rfl]
      simp only [alFind?]
      rw [if_neg (Ne.symm h), if_neg (Ne.symm h)]
    · rw [if_neg h0]
      simp only [alFind?]
      by_cases h1 : k₀ = k'
      · rw [if_pos h1, if_pos h1]
      · rw [if_neg h1, if_neg h1, ih]

theorem alFind?_dictUpdate_not_mem {β : Type} (base upd : List (String × β)) (k : String)
    (h : k ∉ upd.map Prod.fst) : alFind? (dictUpdate base upd) k = alFind? base k := by
  induction upd generalizing base with
  | nil => simp [dictUpdate]
  | cons hd tl ih =>
    simp only [List.map_cons, List.mem_cons, not_or] at h
    have : dictUpdate base (hd :: tl) = dictUpdate (alSet base hd.1 hd.2) tl := rfl
    rw [this, ih _ h.2, alFind?_alSet_ne _ _ _ _ h.1]

/-! ### Data model (second_brain/core/models.py) -/

/-- CaptureItem: a raw captured thought awaiting classification. -/
structure CaptureItem where
  itemId : String
  text : String
  source : String
deriving Repr, DecidableEq

/-- ClassificationResult: category / confidence / title / proposed fields as
produced by an AI collaborator.  Field values and the raw payload are kept as
strings. -/
structure ClassificationResult where
  category : String
  confidence : ℚ
  title : String
  fields : List (String × String)
  raw : String
deriving Repr, DecidableEq

/-- StoredRecord: the durable entity created by the Storage capability.
`createdAt` abstracts the creation datetime as a comparable timestamp. -/
structure StoredRecord where
  category : String
  recordId : String
  title : String
  fields : List (String × String)
  createdAt : Nat
deriving Repr, DecidableEq

/-- InboxLogEntry: the append-only audit row written by the gate.
`recordId = none` models the absence of the `record_id` key. -/
structure InboxLogEntry where
  sourceId : String
  source : String
  capturedText : String
  category : String
  title : String
  confidence : ℚ
  timestamp : String
  status : String
  recordId : Option String
deriving Repr, DecidableEq

/-- A call made by the gate against the Storage capability. -/
inductive StorageCall where
  | store (category : String) (fields : List (String × String))
  | logInbox (entry : InboxLogEntry)
deriving Repr, DecidableEq

/-! ### Classification Gate (second_brain/core/pipeline.py) -/

/-- The four valid categories (`VALID_CATEGORIES` in pipeline.py). -/
def VALID_CATEGORIES : List String := ["people", "projects", "ideas", "admin"]

/-- Environment of the gate: the configured threshold plus the external
collaborators it consults — the clock (`datetime.utcnow()`), the date parser
(`datetime.fromisoformat(...).date()`, yielding an abstract day number), and
the Storage `store` result. -/
structure GateEnv where
  threshold : ℚ
  nowISO : String
  todayISO : String
  parseDate : String → Option Int
  today : Int
  store : String → List (String × String) → StoredRecord

/-- Category coercion at the top of `Pipeline._handle_classification`: an
out-of-vocabulary category becomes `admin` with confidence capped at 0.4. -/
def coerceResult (result : ClassificationResult) : ClassificationResult :=
  if result.category ∈ VALID_CATEGORIES then result
  else
    { category := "admin", confidence := min result.confidence 0.4,
      title := result.title, fields := result.fields, raw := result.raw }

/-- `_is_valid_date` in pipeline.py: non-empty and ISO-8601 parseable. -/
def isValidDate (env : GateEnv) (value : String) : Bool :=
  if value = "" then false else (env.parseDate value).isSome

/-- `_is_reasonable_due_date` in pipeline.py: a valid date not in the past. -/
def isReasonableDueDate (env : GateEnv) (value : String) : Bool :=
  if !(isValidDate env value) then false
  else
    match env.parseDate value with
    | none => false
    | some day => decide (env.today ≤ day)

/-- Name defaulting in `Pipeline._handle_classification`: if neither `name`
nor `title` is present in the fields, inject `name = result.title`. -/
def injectName (result : ClassificationResult) : List (String × String) :=
  if (alFind? result.fields "name").isNone ∧ (alFind? result.fields "title").isNone then
    alSet result.fields "name" result.title
  else result.fields

/-- Field defaulting of the filing path of `Pipeline._handle_classification`:
inject `name` when neither `name` nor `title` is present, force
`last_touched` for `people`, and clear an unreasonable `due_date` for
`admin`. -/
def gateFields (env : GateEnv) (category : String) (result : ClassificationResult) :
    List (String × String) :=
  let rf := injectName result
  let rf := if category = "people" then alSet rf "last_touched" env.todayISO else rf
  if category = "admin" then
    if !(isReasonableDueDate env (alGetD rf "due_date" "")) then alSet rf "due_date" ""
    else rf
  else rf

/-- `Pipeline._handle_classification`: the classification gate.  Returns the
optional stored record together with the ordered list of Storage calls. -/
def handleClassification (env : GateEnv) (item : CaptureItem)
    (result0 : ClassificationResult) : Option StoredRecord × List StorageCall :=
  let result := coerceResult result0
  let category := result.category
  if result.confidence < env.threshold then
    (none,
      [StorageCall.logInbox
        { sourceId := item.itemId, source := item.source, capturedText := item.text,
          category := category, title := result.title, confidence := result.confidence,
          timestamp := env.nowISO, status := "needs_review", recordId := none }])
  else
    let recordFields := gateFields env category result
    let stored := env.store category recordFields
    (some stored,
      [StorageCall.store category recordFields,
       StorageCall.logInbox
        { sourceId := item.itemId, source := item.source, capturedText := item.text,
          category := category, title := result.title, confidence := result.confidence,
          timestamp := env.nowISO, status := "filed", recordId := some stored.recordId }])

/-! ### Gate theorems (claims C1–C3) -/

/-- C1: for every capture item and classification result whose effective
confidence is strictly below the configured threshold, the gate never calls
`Storage.store`, returns no stored record, and writes exactly one
`InboxLogEntry` with status `needs_review` and no `record_id`. -/
theorem gate_below_threshold_only_logs_needs_review (env : GateEnv) (item : CaptureItem)
    (r : ClassificationResult) (h : (coerceResult r).confidence < env.threshold) :
    handleClassification env item r =
      (none,
        [StorageCall.logInbox
          { sourceId := item.itemId, source := item.source, capturedText := item.text,
            category := (coerceResult r).category, title := (coerceResult r).title,
            confidence := (coerceResult r).confidence, timestamp := env.nowISO,
            status := "needs_review", recordId := none }]) := by
  unfold handleClassification
  rw [if_pos h]

/-- A concrete gate environment and inputs used by the gate witnesses. -/
def sampleGateEnv : GateEnv where
  threshold := 0.6
  nowISO := "2026-10-12T00:00:00"
  todayISO := "2026-10-12"
  parseDate := fun s =>
    if s = "2026-12-01" then some 50 else if s = "2020-01-01" then some (-50) else none
  today := 0
  store := fun c f =>
    { category := c, recordId := "rid-1", title := alGetD f "name" "Untitled",
      fields := f, createdAt := 7 }

/-- A concrete capture item for the gate witnesses. -/
def sampleItem : CaptureItem where
  itemId := "item-1"
  text := "call Ada about the launch"
  source := "webex"

/-- A low-confidence classification result in a valid category. -/
def sampleResultLow : ClassificationResult where
  category := "ideas"
  confidence := 0.25
  title := "Launch call"
  fields := [("notes", "call Ada")]
  raw := "raw"

theorem gate_below_threshold_only_logs_needs_review_witness :
    (coerceResult sampleResultLow).confidence < sampleGateEnv.threshold ∧
    handleClassification sampleGateEnv sampleItem sampleResultLow =
      (none,
        [StorageCall.logInbox
          { sourceId := sampleItem.itemId, source := sampleItem.source,
            capturedText := sampleItem.text,
            category := (coerceResult sampleResultLow).category,
            title := (coerceResult sampleResultLow).title,
            confidence := (coerceResult sampleResultLow).confidence,
            timestamp := sampleGateEnv.nowISO,
            status := "needs_review", recordId := none }]) := by
  have h : (coerceResult sampleResultLow).confidence < sampleGateEnv.threshold := by
    norm_num [coerceResult, sampleResultLow, sampleGateEnv, VALID_CATEGORIES]
  exact ⟨h, gate_below_threshold_only_logs_needs_review sampleGateEnv sampleItem sampleResultLow h⟩

/-- C2: a classification result whose category is not one of the four valid
categories is processed with effective category `admin` and effective
confidence `min confidence 0.4`, with title, fields and raw unchanged. -/
theorem gate_invalid_category_coerced_to_admin (r : ClassificationResult)
    (h : r.category ∉ VALID_CATEGORIES) :
    coerceResult r =
      { category := "admin", confidence := min r.confidence 0.4,
        title := r.title, fields := r.fields, raw := r.raw } ∧
    ∀ (env : GateEnv) (item : CaptureItem),
      handleClassification env item r =
        handleClassification env item
          { category := "admin", confidence := min r.confidence 0.4,
            title := r.title, fields := r.fields, raw := r.raw } := by
  have hc : coerceResult r =
      { category := "admin", confidence := min r.confidence 0.4,
        title := r.title, fields := r.fields, raw := r.raw } := by
    unfold coerceResult
    rw [if_neg h]
  refine ⟨hc, fun env item => ?_⟩
  have hc2 : coerceResult
      { category := "admin", confidence := min r.confidence 0.4,
        title := r.title, fields := r.fields, raw := r.raw } =
      { category := "admin", confidence := min r.confidence 0.4,
        title := r.title, fields := r.fields, raw := r.raw } := by
    unfold coerceResult
    simp [VALID_CATEGORIES]
  unfold handleClassification
  rw [hc, hc2]

/-- A classification result in an out-of-vocabulary category. -/
def sampleResultBogus : ClassificationResult where
  category := "errand"
  confidence := 0.9
  title := "Buy stamps"
  fields := [("notes", "post office")]
  raw := "raw2"

theorem gate_invalid_category_coerced_to_admin_witness :
    sampleResultBogus.category ∉ VALID_CATEGORIES ∧
    (coerceResult sampleResultBogus =
      { category := "admin", confidence := min sampleResultBogus.confidence 0.4,
        title := sampleResultBogus.title, fields := sampleResultBogus.fields,
        raw := sampleResultBogus.raw } ∧
    ∀ (env : GateEnv) (item : CaptureItem),
      handleClassification env item sampleResultBogus =
        handleClassification env item
          { category := "admin", confidence := min sampleResultBogus.confidence 0.4,
            title := sampleResultBogus.title, fields := sampleResultBogus.fields,
            raw := sampleResultBogus.raw }) := by
  have h : sampleResultBogus.category ∉ VALID_CATEGORIES := by
    simp [sampleResultBogus, VALID_CATEGORIES]
  exact ⟨h, gate_invalid_category_coerced_to_admin sampleResultBogus h⟩

theorem coerceResult_fields (r : ClassificationResult) :
    (coerceResult r).fields = r.fields := by
  unfold coerceResult
  split <;> rfl

theorem find_due_injectName (res : ClassificationResult) :
    alFind? (injectName res) "due_date" = alFind? res.fields "due_date" := by
  unfold injectName
  split
  · exact alFind?_alSet_ne _ _ _ _ (by decide)
  · rfl

theorem gateFields_admin (env : GateEnv) (res : ClassificationResult) :
    gateFields env "admin" res =
      (if !(isReasonableDueDate env (alGetD (injectName res) "due_date" "")) then
        alSet (injectName res) "due_date" ""
      else injectName res) := rfl

/-- C3: when the gate files an `admin` record, the fields passed to
`Storage.store` carry `due_date = ""` whenever the original `due_date` is
unparseable or strictly in the past, and carry the original `due_date`
unchanged whenever it parses to today or a future date. -/
theorem gate_admin_due_date_validation (env : GateEnv) (item : CaptureItem)
    (r : ClassificationResult) (d : String)
    (hcat : (coerceResult r).category = "admin")
    (hconf : ¬ (coerceResult r).confidence < env.threshold)
    (hdd : alFind? r.fields "due_date" = some d) :
    handleClassification env item r =
      (some (env.store "admin" (gateFields env "admin" (coerceResult r))),
        [StorageCall.store "admin" (gateFields env "admin" (coerceResult r)),
         StorageCall.logInbox
          { sourceId := item.itemId, source := item.source, capturedText := item.text,
            category := "admin", title := (coerceResult r).title,
            confidence := (coerceResult r).confidence, timestamp := env.nowISO,
            status := "filed",
            recordId :=
              some (env.store "admin" (gateFields env "admin" (coerceResult r))).recordId }]) ∧
    ((env.parseDate d = none ∨ ∃ day, env.parseDate d = some day ∧ day < env.today) →
      alFind? (gateFields env "admin" (coerceResult r)) "due_date" = some "") ∧
    (∀ day, env.parseDate d = some day → env.today ≤ day → d ≠ "" →
      alFind? (gateFields env "admin" (coerceResult r)) "due_date" = some d) := by
  have hfind : alFind? (coerceResult r).fields "due_date" = some d := by
    rw [coerceResult_fields]; exact hdd
  have hstep := find_due_injectName (coerceResult r)
  have hget : alGetD (injectName (coerceResult r)) "due_date" "" = d := by
    unfold alGetD
    rw [hstep, hfind]
    rfl
  refine ⟨?_, ?_, ?_⟩
  · unfold handleClassification
    rw [if_neg hconf, hcat]
  · intro hbad
    rw [gateFields_admin, hget]
    have hbadb : isReasonableDueDate env d = false := by
      unfold isReasonableDueDate isValidDate
      rcases hbad with hnone | ⟨day, hday, hlt⟩
      · by_cases hd : d = ""
        · rw [if_pos hd]; simp
        · rw [if_neg hd, hnone]; simp
      · by_cases hd : d = ""
        · rw [if_pos hd]; simp
        · rw [if_neg hd, hday]
          simp only [Option.isSome_some, Bool.not_true, Bool.false_eq_true,
            if_false, decide_eq_false_iff_not, not_le]
          exact hlt
    rw [hbadb]
    simp only [Bool.not_false, if_pos]
    exact alFind?_alSet_self _ _ _
  · intro day hday hle hne
    rw [gateFields_admin, hget]
    have hok : isReasonableDueDate env d = true := by
      unfold isReasonableDueDate isValidDate
      rw [if_neg hne, hday]
      simp [hle]
    rw [hok]
    simp only [Bool.not_true, Bool.false_eq_true, if_false]
    rw [hstep, hfind]

/-- An admin classification result with a stale due date. -/
def sampleResultAdmin : ClassificationResult where
  category := "admin"
  confidence := 0.8
  title := "File taxes"
  fields := [("name", "File taxes"), ("due_date", "2020-01-01")]
  raw := "raw3"

theorem gate_admin_due_date_validation_witness :
    (coerceResult sampleResultAdmin).category = "admin" ∧
    ¬ (coerceResult sampleResultAdmin).confidence < sampleGateEnv.threshold ∧
    alFind? sampleResultAdmin.fields "due_date" = some "2020-01-01" ∧
    (handleClassification sampleGateEnv sampleItem sampleResultAdmin =
      (some (sampleGateEnv.store "admin"
          (gateFields sampleGateEnv "admin" (coerceResult sampleResultAdmin))),
        [StorageCall.store "admin"
          (gateFields sampleGateEnv "admin" (coerceResult sampleResultAdmin)),
         StorageCall.logInbox
          { sourceId := sampleItem.itemId, source := sampleItem.source,
            capturedText := sampleItem.text,
            category := "admin", title := (coerceResult sampleResultAdmin).title,
            confidence := (coerceResult sampleResultAdmin).confidence,
            timestamp := sampleGateEnv.nowISO,
            status := "filed",
            recordId :=
              some (sampleGateEnv.store "admin"
                (gateFields sampleGateEnv "admin" (coerceResult sampleResultAdmin))).recordId }]) ∧
    ((sampleGateEnv.parseDate "2020-01-01" = none ∨
        ∃ day, sampleGateEnv.parseDate "2020-01-01" = some day ∧ day < sampleGateEnv.today) →
      alFind? (gateFields sampleGateEnv "admin" (coerceResult sampleResultAdmin))
        "due_date" = some "") ∧
    (∀ day, sampleGateEnv.parseDate "2020-01-01" = some day → sampleGateEnv.today ≤ day →
      "2020-01-01" ≠ "" →
      alFind? (gateFields sampleGateEnv "admin" (coerceResult sampleResultAdmin))
        "due_date" = some "2020-01-01")) := by
  have hcat : (coerceResult sampleResultAdmin).category = "admin" := by decide
  have hdd : alFind? sampleResultAdmin.fields "due_date" = some "2020-01-01" := by decide
  have hconf : ¬ (coerceResult sampleResultAdmin).confidence < sampleGateEnv.threshold := by
    have h1 : coerceResult sampleResultAdmin = sampleResultAdmin := by
      unfold coerceResult
      rw [if_pos (by decide)]
    rw [h1]
    show ¬ (0.8 : ℚ) < 0.6
    norm_num
  exact ⟨hcat, hconf, hdd,
    gate_admin_due_date_validation sampleGateEnv sampleItem sampleResultAdmin
      "2020-01-01" hcat hconf hdd⟩

/-! ### Python string and integer primitives (lambda_handler.py helpers) -/

/-- Python `str.strip()` on a character list: remove leading and trailing
whitespace. -/
def pyStripL (cs : List Char) : List Char :=
  ((cs.dropWhile Char.isWhitespace).reverse.dropWhile Char.isWhitespace).reverse

/-- Python `str.strip()`. -/
def pyStrip (s : String) : String := String.mk (pyStripL s.toList)

/-- ASCII lower-casing of one character (`str.lower()` on the ASCII range). -/
def pyLowerChar (c : Char) : Char :=
  if 'A' ≤ c ∧ c ≤ 'Z' then Char.ofNat (c.toNat + 32) else c

/-- Python `str.lower()` (ASCII model). -/
def pyLower (s : String) : String := String.mk (s.toList.map pyLowerChar)

/-- Tail of the digit grammar accepted by Python `int`: further digits, with
single underscores allowed between digit groups. -/
def pyIntDigitsTail : List Char → Bool
  | [] => true
  | '_' :: [] => false
  | '_' :: c :: rest => c.isDigit && pyIntDigitsTail (c :: rest)
  | c :: rest => c.isDigit && pyIntDigitsTail rest

/-- Digit grammar accepted by Python `int`: `digit+ ( _ digit+ )*`. -/
def pyIntDigitsOk : List Char → Bool
  | [] => false
  | c :: rest => c.isDigit && pyIntDigitsTail rest

/-- Numeric value of a digit run, skipping underscores. -/
def digitsVal (cs : List Char) : Nat :=
  cs.foldl (fun acc c => if c.isDigit then acc * 10 + (c.toNat - 48) else acc) 0

/-- Python `int(s)` on a decimal string: strip whitespace, optional sign,
digits with single underscores between digit groups; `none` models the
`ValueError`. -/
def pyInt (s : String) : Option Int :=
  match pyStripL s.toList with
  | '+' :: rest => if pyIntDigitsOk rest then some (digitsVal rest) else none
  | '-' :: rest => if pyIntDigitsOk rest then some (-(digitsVal rest : Int)) else none
  | cs => if pyIntDigitsOk cs then some (digitsVal cs) else none

/-! ### Digest selector (lambda_handler.py) -/

/-- `COMPLETED_STATUSES` in lambda_handler.py. -/
def COMPLETED_STATUSES : List String :=
  ["done", "completed", "complete", "closed", "archived"]

/-- `LIST_LIMIT` in lambda_handler.py. -/
def LIST_LIMIT : Nat := 20

/-- `_priority_value`: the record's `Priority`/`priority` field parsed as an
integer in `[1, 5]`, defaulting to 3. -/
def priorityValue (fields : List (String × String)) : Int :=
  match pyInt (pyStrip (truthyGet2 fields "Priority" "priority")) with
  | none => 3
  | some v => if v < 1 ∨ v > 5 then 3 else v

/-- `_status_value`: the record's `Status`/`status` field, stripped and
lower-cased. -/
def statusValue (fields : List (String × String)) : String :=
  pyLower (pyStrip (truthyGet2 fields "Status" "status"))

/-- `_status_priority`: bucket rank of a (normalized) status string. -/
def statusPriority (s : String) : Int :=
  if s = "blocked" ∨ s = "in progress" ∨ s = "active" then 0
  else if s = "open" ∨ s = "doing" ∨ s = "next" ∨ s = "todo" then 1
  else if s = "backlog" ∨ s = "someday" ∨ s = "later" then 2
  else if s ∈ COMPLETED_STATUSES then 9
  else 3

/-- `_filter_open_records`: drop records whose non-empty status is terminal. -/
def filterOpenRecords (records : List StoredRecord) : List StoredRecord :=
  records.filter fun r =>
    !(decide (statusValue r.fields ≠ "") &&
      decide (statusValue r.fields ∈ COMPLETED_STATUSES))

/-- Ascending order on the `(priority, created_at)` sort key used by the
recent-window branch (Python tuple comparison). -/
def digestLe (a b : StoredRecord) : Prop :=
  priorityValue a.fields < priorityValue b.fields ∨
    (priorityValue a.fields = priorityValue b.fields ∧ a.createdAt ≤ b.createdAt)

instance : DecidableRel digestLe := fun a b => by unfold digestLe; infer_instance

/-- Ascending order on the `(priority, status bucket, created_at)` sort key of
the daily fallback. -/
def dailyFallbackLe (a b : StoredRecord) : Prop :=
  priorityValue a.fields < priorityValue b.fields ∨
    (priorityValue a.fields = priorityValue b.fields ∧
      (statusPriority (statusValue a.fields) < statusPriority (statusValue b.fields) ∨
        (statusPriority (statusValue a.fields) = statusPriority (statusValue b.fields) ∧
          a.createdAt ≤ b.createdAt)))

instance : DecidableRel dailyFallbackLe := fun a b => by unfold dailyFallbackLe; infer_instance

instance : IsTotal StoredRecord dailyFallbackLe :=
  ⟨by intro a b; unfold dailyFallbackLe; omega⟩

instance : IsTrans StoredRecord dailyFallbackLe :=
  ⟨by intro a b c hab hbc; unfold dailyFallbackLe at *; omega⟩

/-- `_select_daily_records`: recent-window records sorted by `(priority,
created_at)`; if the window is empty, all records with terminal statuses
excluded, sorted by `(priority, status bucket, created_at)` and truncated to
`LIST_LIMIT`.  Python's `list.sort` is a stable sort, so it is embedded as
insertion sort, which computes the same ordered result for these total
preorders. -/
def selectDailyRecords (listRecords : Option Nat → List StoredRecord) (days : Nat) :
    List StoredRecord :=
  let recent := listRecords (some days)
  if recent ≠ [] then recent.insertionSort digestLe
  else ((filterOpenRecords (listRecords none)).insertionSort dailyFallbackLe).take LIST_LIMIT

/-! ### Digest theorems (claims C6, C7) -/

theorem mem_completed_ne_empty {s : String} (h : s ∈ COMPLETED_STATUSES) : s ≠ "" := by
  simp only [COMPLETED_STATUSES, List.mem_cons, List.not_mem_nil, or_false] at h
  rcases h with rfl | rfl | rfl | rfl | rfl <;> decide

/-- C6: when the one-day recent-window query is empty, the daily selection
draws from all records, excludes every record whose normalized status is
terminal, is sorted by the `(priority, status bucket, created_at)` key, and
holds at most `LIST_LIMIT` (20) records; and the status buckets rank
blocked/in-progress/active as 0, open/doing/next/todo as 1,
backlog/someday/later as 2, terminal statuses as 9, anything else as 3. -/
theorem daily_fallback_selection (listRecords : Option Nat → List StoredRecord)
    (hempty : listRecords (some 1) = []) :
    (selectDailyRecords listRecords 1).length ≤ LIST_LIMIT ∧
    (∀ r ∈ selectDailyRecords listRecords 1,
      r ∈ listRecords none ∧ statusValue r.fields ∉ COMPLETED_STATUSES) ∧
    List.Sorted dailyFallbackLe (selectDailyRecords listRecords 1) ∧
    (∀ s, s = "blocked" ∨ s = "in progress" ∨ s = "active" → statusPriority s = 0) ∧
    (∀ s, s = "open" ∨ s = "doing" ∨ s = "next" ∨ s = "todo" → statusPriority s = 1) ∧
    (∀ s, s = "backlog" ∨ s = "someday" ∨ s = "later" → statusPriority s = 2) ∧
    (∀ s, s ∈ COMPLETED_STATUSES → statusPriority s = 9) ∧
    (∀ s, s ∉ (["blocked", "in progress", "active", "open", "doing", "next", "todo",
        "backlog", "someday", "later"] : List String) → s ∉ COMPLETED_STATUSES →
      statusPriority s = 3) := by
  have hsel : selectDailyRecords listRecords 1 =
      ((filterOpenRecords (listRecords none)).insertionSort dailyFallbackLe).take
        LIST_LIMIT := by
    unfold selectDailyRecords
    rw [hempty]
    simp
  refine ⟨?_, ?_, ?_, ?_, ?_, ?_, ?_, ?_⟩
  · rw [hsel]
    exact List.length_take_le _ _
  · intro r hr
    rw [hsel] at hr
    have h1 : r ∈ (filterOpenRecords (listRecords none)).insertionSort dailyFallbackLe :=
      List.Sublist.mem hr (List.take_sublist _ _)
    have h2 : r ∈ filterOpenRecords (listRecords none) :=
      (List.perm_insertionSort dailyFallbackLe _).mem_iff.mp h1
    unfold filterOpenRecords at h2
    rw [List.mem_filter] at h2
    refine ⟨h2.1, fun hmem => ?_⟩
    have hb := h2.2
    rw [Bool.not_eq_true', Bool.and_eq_false_iff] at hb
    rcases hb with hb | hb
    · rw [decide_eq_false_iff_not] at hb
      exact hb (mem_completed_ne_empty hmem)
    · rw [decide_eq_false_iff_not] at hb
      exact hb hmem
  · rw [hsel]
    exact List.Pairwise.sublist (List.take_sublist _ _)
      (List.sorted_insertionSort dailyFallbackLe _)
  · intro s h
    rcases h with rfl | rfl | rfl <;> rfl
  · intro s h
    rcases h with rfl | rfl | rfl | rfl <;> rfl
  · intro s h
    rcases h with rfl | rfl | rfl <;> rfl
  · intro s h
    simp only [COMPLETED_STATUSES, List.mem_cons, List.not_mem_nil, or_false] at h
    rcases h with rfl | rfl | rfl | rfl | rfl <;> rfl
  · intro s h10 hc
    unfold statusPriority
    rw [if_neg, if_neg, if_neg, if_neg]
    · exact hc
    · rintro (rfl | rfl | rfl) <;> exact h10 (by decide)
    · rintro (rfl | rfl | rfl | rfl) <;> exact h10 (by decide)
    · rintro (rfl | rfl | rfl) <;> exact h10 (by decide)

/-- A concrete storage query result for the digest witness: the one-day
window is empty, the unbounded query holds one terminal and two open
records. -/
def sampleListRecords : Option Nat → List StoredRecord := fun d =>
  match d with
  | some _ => []
  | none =>
    [{ category := "projects", recordId := "r1", title := "Ship v2",
       fields := [("Status", "Done"), ("Priority", "1")], createdAt := 5 },
     { category := "admin", recordId := "r2", title := "Taxes",
       fields := [("Status", "backlog")], createdAt := 3 },
     { category := "ideas", recordId := "r3", title := "Essay",
       fields := [("Priority", "2")], createdAt := 9 }]

theorem daily_fallback_selection_witness :
    sampleListRecords (some 1) = [] ∧
    ((selectDailyRecords sampleListRecords 1).length ≤ LIST_LIMIT ∧
    (∀ r ∈ selectDailyRecords sampleListRecords 1,
      r ∈ sampleListRecords none ∧ statusValue r.fields ∉ COMPLETED_STATUSES) ∧
    List.Sorted dailyFallbackLe (selectDailyRecords sampleListRecords 1) ∧
    (∀ s, s = "blocked" ∨ s = "in progress" ∨ s = "active" → statusPriority s = 0) ∧
    (∀ s, s = "open" ∨ s = "doing" ∨ s = "next" ∨ s = "todo" → statusPriority s = 1) ∧
    (∀ s, s = "backlog" ∨ s = "someday" ∨ s = "later" → statusPriority s = 2) ∧
    (∀ s, s ∈ COMPLETED_STATUSES → statusPriority s = 9) ∧
    (∀ s, s ∉ (["blocked", "in progress", "active", "open", "doing", "next", "todo",
        "backlog", "someday", "later"] : List String) → s ∉ COMPLETED_STATUSES →
      statusPriority s = 3)) :=
  ⟨rfl, daily_fallback_selection sampleListRecords rfl⟩

/-- C7: priority parsing yields the parsed integer exactly when it lies in
`[1, 5]`, and 3 for every unparseable or out-of-range input. -/
theorem priority_parsing (fields : List (String × String)) :
    (∀ v : Int, pyInt (pyStrip (truthyGet2 fields "Priority" "priority")) = some v →
      1 ≤ v → v ≤ 5 → priorityValue fields = v) ∧
    ((∀ v : Int, pyInt (pyStrip (truthyGet2 fields "Priority" "priority")) = some v →
      v < 1 ∨ 5 < v) → priorityValue fields = 3) := by
  constructor
  · intro v hv h1 h5
    unfold priorityValue
    rw [hv]
    simp only
    rw [if_neg (by omega)]
  · intro hout
    unfold priorityValue
    cases hv : pyInt (pyStrip (truthyGet2 fields "Priority" "priority")) with
    | none => rfl
    | some v =>
      simp only
      rw [if_pos (by have := hout v hv; omega)]

theorem priority_parsing_witness :
    ((1 : Int) ≤ 4 ∧ (4 : Int) ≤ 5 ∧
      pyInt (pyStrip (truthyGet2 [("Priority", "4")] "Priority" "priority")) = some 4 ∧
      priorityValue [("Priority", "4")] = 4) ∧
    priorityValue [("Priority", "abc")] = 3 ∧
    priorityValue [("priority", "")] = 3 ∧
    priorityValue [("Priority", "7")] = 3 ∧
    priorityValue [("Priority", "0")] = 3 := by
  have habc : pyInt (pyStrip (truthyGet2 [("Priority", "abc")] "Priority" "priority")) =
      none := by decide
  have hempt : pyInt (pyStrip (truthyGet2 [("priority", "")] "Priority" "priority")) =
      none := by decide
  have h7 : pyInt (pyStrip (truthyGet2 [("Priority", "7")] "Priority" "priority")) =
      some 7 := by decide
  have h0 : pyInt (pyStrip (truthyGet2 [("Priority", "0")] "Priority" "priority")) =
      some 0 := by decide
  refine ⟨⟨by norm_num, by norm_num, by decide,
      (priority_parsing [("Priority", "4")]).1 4 (by decide) (by norm_num) (by norm_num)⟩,
    ?_, ?_, ?_, ?_⟩
  · refine (priority_parsing [("Priority", "abc")]).2 fun v hv => ?_
    rw [habc] at hv
    exact Option.noConfusion hv
  · refine (priority_parsing [("priority", "")]).2 fun v hv => ?_
    rw [hempt] at hv
    exact Option.noConfusion hv
  · refine (priority_parsing [("Priority", "7")]).2 fun v hv => ?_
    rw [h7] at hv
    injection hv with hv'
    omega
  · refine (priority_parsing [("Priority", "0")]).2 fun v hv => ?_
    rw [h0] at hv
    injection hv with hv'
    omega

/-! ### JSON storage backend (second_brain/adapters/storage_json.py) -/

/-- A row of a per-category JSON table as written by `JsonStorage`. -/
structure JsonItem where
  id : String
  category : String
  title : String
  fields : List (String × String)
  createdAt : String
deriving Repr, DecidableEq

/-- The new title chosen by `JsonStorage.update_record`: a non-empty `name`
value in the update wins, else a non-empty `title` value, else the old
title is kept. -/
def updatedTitle (upd : List (String × String)) (old : String) : String :=
  match truthyFind? upd "name" with
  | some v => v
  | none =>
    match truthyFind? upd "title" with
    | some t => t
    | none => old

/-- `JsonStorage.update_record`: find the first row with the given id, merge
the update into its stored fields, retitle it from a non-empty
`name`/`title` update value, and return the rewritten table together with
the updated row; `none` models the `RuntimeError` for an unknown id. -/
def updateRecordJson : List JsonItem → String → List (String × String) →
    Option (List JsonItem × JsonItem)
  | [], _, _ => none
  | item :: rest, recordId, upd =>
    if item.id = recordId then
      let item' : JsonItem :=
        { item with
          fields := dictUpdate item.fields upd,
          title := updatedTitle upd item.title }
      some (item' :: rest, item')
    else
      match updateRecordJson rest recordId upd with
      | some (rest', it) => some (item :: rest', it)
      | none => none

/-- First row of a table with a given id (the row `update_record` mutates). -/
def firstWithId : List JsonItem → String → Option JsonItem
  | [], _ => none
  | item :: rest, recordId =>
    if item.id = recordId then some item else firstWithId rest recordId

theorem updateRecordJson_eq (items : List JsonItem) (recordId : String)
    (upd : List (String × String)) (item : JsonItem)
    (h : firstWithId items recordId = some item) :
    ∃ items', updateRecordJson items recordId upd =
      some (items',
        { item with
          fields := dictUpdate item.fields upd,
          title := updatedTitle upd item.title }) := by
  induction items with
  | nil => exact absurd h (by simp [firstWithId])
  | cons hd tl ih =>
    unfold firstWithId at h
    unfold updateRecordJson
    by_cases hid : hd.id = recordId
    · rw [if_pos hid] at h
      rw [if_pos hid]
      injection h with h'
      subst h'
      exact ⟨_, rfl⟩
    · rw [if_neg hid] at h
      rw [if_neg hid]
      obtain ⟨tl', htl⟩ := ih h
      rw [htl]
      exact ⟨hd :: tl', rfl⟩

/-- C9: `JsonStorage.update_record` retitles the found row from a non-empty
`name` update value, else a non-empty `title` update value, else keeps the
old title; and every stored field whose key is not named in the update is
preserved. -/
theorem json_update_record_title_and_fields (items : List JsonItem) (recordId : String)
    (upd : List (String × String)) (item : JsonItem)
    (h : firstWithId items recordId = some item) :
    (∃ items', updateRecordJson items recordId upd =
      some (items',
        { item with
          fields := dictUpdate item.fields upd,
          title := updatedTitle upd item.title })) ∧
    (∀ v, truthyFind? upd "name" = some v → updatedTitle upd item.title = v) ∧
    (truthyFind? upd "name" = none → ∀ t, truthyFind? upd "title" = some t →
      updatedTitle upd item.title = t) ∧
    (truthyFind? upd "name" = none → truthyFind? upd "title" = none →
      updatedTitle upd item.title = item.title) ∧
    (∀ k, k ∉ upd.map Prod.fst →
      alFind? (dictUpdate item.fields upd) k = alFind? item.fields k) := by
  refine ⟨updateRecordJson_eq items recordId upd item h, ?_, ?_, ?_, ?_⟩
  · intro v hv
    unfold updatedTitle
    rw [hv]
  · intro hn t ht
    unfold updatedTitle
    rw [hn, ht]
  · intro hn ht
    unfold updatedTitle
    rw [hn, ht]
  · intro k hk
    exact alFind?_dictUpdate_not_mem _ _ _ hk

/-- A concrete two-row `people` table for the storage witness. -/
def sampleTable : List JsonItem :=
  [{ id := "a", category := "people", title := "Ada",
     fields := [("Context", "math"), ("name", "Ada")], createdAt := "2026-01-01" },
   { id := "b", category := "people", title := "Grace",
     fields := [("Context", "navy"), ("name", "Grace")], createdAt := "2026-01-02" }]

/-- The second row of `sampleTable`. -/
def sampleItemB : JsonItem :=
  { id := "b", category := "people", title := "Grace",
    fields := [("Context", "navy"), ("name", "Grace")], createdAt := "2026-01-02" }

theorem json_update_record_title_and_fields_witness :
    firstWithId sampleTable "b" = some sampleItemB ∧
    ((∃ items', updateRecordJson sampleTable "b" [("name", ""), ("title", "New")] =
      some (items',
        { sampleItemB with
          fields := dictUpdate sampleItemB.fields [("name", ""), ("title", "New")],
          title := updatedTitle [("name", ""), ("title", "New")] sampleItemB.title })) ∧
    (∀ v, truthyFind? [("name", ""), ("title", "New")] "name" = some v →
      updatedTitle [("name", ""), ("title", "New")] sampleItemB.title = v) ∧
    (truthyFind? [("name", ""), ("title", "New")] "name" = none →
      ∀ t, truthyFind? [("name", ""), ("title", "New")] "title" = some t →
      updatedTitle [("name", ""), ("title", "New")] sampleItemB.title = t) ∧
    (truthyFind? [("name", ""), ("title", "New")] "name" = none →
      truthyFind? [("name", ""), ("title", "New")] "title" = none →
      updatedTitle [("name", ""), ("title", "New")] sampleItemB.title =
        sampleItemB.title) ∧
    (∀ k, k ∉ ([("name", ""), ("title", "New")].map Prod.fst) →
      alFind? (dictUpdate sampleItemB.fields [("name", ""), ("title", "New")]) k =
        alFind? sampleItemB.fields k)) :=
  ⟨by decide,
    json_update_record_title_and_fields sampleTable "b"
      [("name", ""), ("title", "New")] sampleItemB (by decide)⟩

/-! ### Webhook text parsing (lambda_handler.py) -/

/-- Word character for the regex boundary in `^(\d+)\b`: alphanumeric or
underscore. -/
def isWordChar (c : Char) : Bool := c.isAlphanum || c = '_'

/-- One candidate of `_strip_bot_prefix`: when the lowered text starts with
the variant followed by a space or colon separator, drop them from the
original-case text. -/
def stripVariant (cleaned lower variant : List Char) : Option (List Char) :=
  if (variant ++ [' ']).isPrefixOf lower then some (cleaned.drop (variant.length + 1))
  else if (variant ++ [':']).isPrefixOf lower then some (cleaned.drop (variant.length + 1))
  else none

/-- The first candidate of `_strip_bot_prefix` that matches wins. -/
def stripFirstVariant (cleaned lower : List Char) : List (List Char) → Option (List Char)
  | [] => none
  | v :: vs =>
    match stripVariant cleaned lower v with
    | some r => some r
    | none => stripFirstVariant cleaned lower vs

/-- `_strip_bot_prefix`: strip an optional bot-name/@mention lead-in (the
configured `WEBEX_BOT_NAME` first, then the built-in aliases), matching
case-insensitively while keeping the rest of the text in its original
case. -/
def stripBotName (botName text : String) : String :=
  let cleaned := pyStripL text.toList
  if cleaned = [] then String.mk cleaned
  else
    let lower := cleaned.map pyLowerChar
    let bn := (pyStripL botName.toList).map pyLowerChar
    let candidates :=
      (if bn ≠ [] then [bn, '@' :: bn] else []) ++
        (["task_master", "taskmanager", "task manager", "bot"].map String.toList).flatMap
          (fun p => [p, '@' :: p])
    match stripFirstVariant cleaned lower candidates with
    | some r => String.mk r
    | none => String.mk cleaned

/-- The `_strip_bot_prefix(text).strip().lower()` normalization shared by the
cancel check, `_parse_update_request` and `_parse_command`. -/
def cleanedLower (botName text : String) : String :=
  pyLower (pyStrip (stripBotName botName text))

/-- The cancel check at the top of the handler: normalized text is `cancel`
or `update cancel`. -/
def isCancelText (botName text : String) : Bool :=
  decide (cleanedLower botName text = "cancel") ||
    decide (cleanedLower botName text = "update cancel")

/-- `_parse_update_request`: normalized text starting with `update`, an
optional `:`, then digits at a word boundary (regex `^(\d+)\b`), yielding
the selected number. -/
def parseUpdateRequest (botName text : String) : Option Nat :=
  let cleaned := cleanedLower botName text
  if !("update".toList.isPrefixOf cleaned.toList) then none
  else
    let remainder := pyStripL (cleaned.toList.drop 6)
    let remainder :=
      match remainder with
      | ':' :: rest => pyStripL rest
      | _ => remainder
    let ds := remainder.takeWhile Char.isDigit
    if ds = [] then none
    else
      match remainder.drop ds.length with
      | [] => some (digitsVal ds)
      | c :: _ => if isWordChar c then none else some (digitsVal ds)

/-- `_parse_field_selection`: the regex `^(\d+)(?:[).:\-]\s*|\s+)?(.*)$`
over the prefix-stripped text — leading digits, an optional punctuation or
whitespace separator, and the stripped rest as the optional inline value. -/
def parseFieldSelection (botName text : String) : Option Nat × Option String :=
  let cleaned := pyStripL (stripBotName botName text).toList
  let ds := cleaned.takeWhile Char.isDigit
  if ds = [] then (none, none)
  else
    let rest := cleaned.drop ds.length
    let rest :=
      match rest with
      | c :: tail => if c = ')' ∨ c = '.' ∨ c = ':' ∨ c = '-' then tail else c :: tail
      | [] => []
    let value := pyStripL rest
    (some (digitsVal ds), if value = [] then none else some (String.mk value))

/-- Python `str.split()`: whitespace-run tokenization with no empty tokens
(the accumulator carries the current token reversed). -/
def pyTokens : List Char → List Char → List (List Char)
  | [], acc => if acc = [] then [] else [acc.reverse]
  | c :: rest, acc =>
    if c.isWhitespace then
      if acc = [] then pyTokens rest [] else acc.reverse :: pyTokens rest []
    else pyTokens rest (c :: acc)

/-- `_parse_command`: normalized text with `?`/`!` removed, matched against
the command vocabulary. -/
def parseCommand (botName text : String) : Option String :=
  let cleaned := cleanedLower botName text
  if cleaned = "" then none
  else
    let cleaned2 := pyStripL (cleaned.toList.filter fun c => c != '?' && c != '!')
    let tokens := pyTokens cleaned2 []
    if tokens = ["help".toList] ∨ tokens = ["commands".toList] then some "help"
    else if tokens = ["this".toList, "week".toList] then some "week"
    else if tokens = ["next".toList] then some "next"
    else if tokens = ["today".toList] ∨ tokens = ["daily".toList] then some "today"
    else if tokens = ["week".toList] ∨ tokens = ["weekly".toList] then some "week"
    else none

/-- `_parse_fix_category`: a `fix:` reply naming a category alias.  Because
the lowered text starts with `fix:`, the first colon sits at index 3, so
Python's `text.split(":", 1)[1]` is the text from index 4 on. -/
def parseFixCategory (text : String) : Option String :=
  if !("fix:".toList.isPrefixOf (pyLower text).toList) then none
  else
    let remainder := pyLower (pyStrip (String.mk (text.toList.drop 4)))
    if remainder = "" then none
    else
      let token := (pyTokens remainder.toList []).headD []
      if token = "person".toList ∨ token = "people".toList then some "people"
      else if token = "project".toList ∨ token = "projects".toList then some "projects"
      else if token = "idea".toList ∨ token = "ideas".toList then some "ideas"
      else if token = "admin".toList then some "admin"
      else none

/-! ### Conversation session state (lambda_handler.py) -/

/-- One entry of the field menu held in `pending_update["fields"]`. -/
structure FieldOption where
  key : String
  name : String
deriving Repr, DecidableEq

/-- One snapshot row of `last_list`. -/
structure ListItem where
  recordId : String
  category : String
  title : String
  fields : List (String × String)
deriving Repr, DecidableEq

/-- The `pending_update` sub-state of a session; `fieldKey`/`fieldName` are
`none` while the corresponding dict keys are absent. -/
structure PendingUpdate where
  recordId : String
  category : String
  fields : List FieldOption
  awaitingValue : Bool
  fieldKey : Option String
  fieldName : Option String
deriving Repr, DecidableEq

/-- Per-person session state (`state[room_id][person_id]`). -/
structure PersonState where
  updatedAt : Int
  lastList : List ListItem
  pendingUpdate : Option PendingUpdate
deriving Repr, DecidableEq

/-- The missing-person default (`room_state.get(person_id, {})` read through
`.get` accessors). -/
def emptyPersonState : PersonState :=
  { updatedAt := 0, lastList := [], pendingUpdate := none }

/-- A room's sessions, keyed by person id. -/
abbrev RoomState := List (String × PersonState)

/-- The whole session store, keyed by room id. -/
abbrev AppState := List (String × RoomState)

/-- `STATE_TTL_MINUTES` in lambda_handler.py. -/
def STATE_TTL_MINUTES : Int := 30

/-- `_prune_state`: drop person entries idle past the TTL (a zero
`updated_at` is falsy in Python and survives), then drop empty rooms. -/
def pruneState (now : Int) (state : AppState) : AppState :=
  let cutoff := now - STATE_TTL_MINUTES * 60
  (state.map fun rs =>
    (rs.1, rs.2.filter fun ps =>
      !(decide (ps.2.updatedAt ≠ 0) && decide (ps.2.updatedAt < cutoff)))).filter
    fun rs => !(rs.2.isEmpty)

/-! ### Webhook dispatch (the text portion of `handler` in lambda_handler.py) -/

/-- External collaborators and configuration consulted by the text dispatch:
the bot name, the clock, the per-category `property_map` (key ↦ optional
display name), the storage queries, the storage update result, the
parent-message text used by `fix:` replies, and the pipeline auto-run
settings. -/
structure HandlerEnv where
  botName : String
  now : Int
  propertyMap : String → List (String × Option String)
  listRecords : Option Nat → List StoredRecord
  updateRecordResult : String → String → List (String × String) → StoredRecord
  parentText : String → String
  runPipelineFlag : Bool
  pipelineCount : Nat

/-- An inbound chat message after the ingress checks (ids, room, stripped
non-empty text, optional threaded parent). -/
structure InboundMessage where
  messageId : String
  roomId : String
  personId : String
  text : String
  parentId : Option String
deriving Repr, DecidableEq

/-- Which dispatch branch of the handler processed the message. -/
inductive DispatchBranch where
  | cancel
  | awaitingValue
  | fieldSelection
  | updateRequest
  | command
  | fixReply
  | defaultCapture
deriving Repr, DecidableEq

/-- The handler's response body, by outcome. -/
inductive HandlerBody where
  | updateCanceled
  | awaitingFieldSelection
  | fieldSelectionOutOfRange
  | awaitingUpdateValue
  | updated
  | missingList
  | updateSelectionOutOfRange
  | updatePromptSent
  | helpSent
  | weeklyDigestSent
  | dailyDigestSent
  | nextDigestSent
  | fixMissingParent
  | fixMissingOriginalText
  | fixed (processed : Nat)
  | queued (processed : Nat)
deriving Repr, DecidableEq

/-- The observable outcome of one text dispatch: branch taken, chat reply
posted, session file written (`none` means `_save_state` was never called),
storage update call, enqueued capture text, persisted processed-id set
afterwards, and response body. -/
structure DispatchResult where
  branch : DispatchBranch
  reply : Option String
  savedState : Option AppState
  updateCall : Option (String × String × List (String × String))
  enqueued : Option String
  processedAfter : List String
  body : HandlerBody
deriving Repr, DecidableEq

/-- Truthiness of `pending.get("field_key")`: present and non-empty. -/
def fieldKeyTruthy : Option String → Bool
  | none => false
  | some s => s != ""

/-- First truthy value among the given field keys (the `or` chains of
`_record_context`). -/
def truthyChain (fields : List (String × String)) : List String → String
  | [] => ""
  | k :: ks =>
    match truthyFind? fields k with
    | some v => v
    | none => truthyChain fields ks

/-- `_record_context`: the category-specific secondary display line. -/
def recordContext (r : StoredRecord) : String :=
  if r.category = "projects" then
    truthyChain r.fields ["Next Action", "next_action", "Notes", "notes"]
  else if r.category = "people" then
    truthyChain r.fields ["Context", "context", "Follow Ups", "follow_ups"]
  else if r.category = "ideas" then
    truthyChain r.fields ["One Liner", "one_liner", "Notes", "notes"]
  else truthyChain r.fields ["Notes", "notes"]

/-- One numbered line of a digest list. -/
def digestLine (idxRec : Nat × StoredRecord) : String :=
  let context := recordContext idxRec.2
  let line := toString idxRec.1 ++ ") " ++ idxRec.2.category ++ ": " ++ idxRec.2.title
  if context ≠ "" then line ++ " — " ++ context else line

/-- `_send_digest_list`: run the selector, build the numbered list message,
and snapshot the shown items as the person's `last_list` (reloading and
pruning the state file, clearing any `pending_update`). -/
def sendDigestList (env : HandlerEnv) (roomId personId : String) (days : Nat)
    (title : String) (stateFile : AppState) : String × AppState :=
  let records :=
    if days = 1 then selectDailyRecords env.listRecords days
    else (env.listRecords (some days)).insertionSort digestLe
  let shown := records.take LIST_LIMIT
  let items := shown.map fun r =>
    ({ recordId := r.recordId, category := r.category, title := r.title,
       fields := r.fields } : ListItem)
  let lines := title :: (List.enumFrom 1 shown).map digestLine
  let lines := if items = [] then lines ++ ["No items found."] else lines
  let pruned := pruneState env.now stateFile
  let roomState := alGetD pruned roomId []
  let ps : PersonState :=
    { updatedAt := env.now, lastList := items, pendingUpdate := none }
  (String.intercalate "\n" lines, alSet pruned roomId (alSet roomState personId ps))

/-- `_build_field_options`: the configured property map when non-empty
(Python truthiness on the dict), else the record's own field keys. -/
def buildFieldOptions (item : ListItem) (pm : List (String × Option String)) :
    List FieldOption :=
  if pm ≠ [] then pm.map fun kn => { key := kn.1, name := kn.2.getD kn.1 }
  else item.fields.map fun kv => { key := kv.1, name := kv.1 }

/-- One numbered line of the field menu (`idx) name[: current]`; the current
value is looked up by the option's display name). -/
def fieldMenuLine (item : ListItem) (idxOpt : Nat × FieldOption) : String :=
  let current := alGetD item.fields idxOpt.2.name ""
  if current ≠ "" then
    toString idxOpt.1 ++ ") " ++ idxOpt.2.name ++ ": " ++ current
  else
    toString idxOpt.1 ++ ") " ++ idxOpt.2.name

/-- The help text posted by the `help` command. -/
def HELP_TEXT : String :=
  "[SB HELP]  \nCommands: next | today | week | help  \nUpdate: update <number>  \nPrefixes: person:, project:, idea:, admin:  \nFix replies: fix: person|project|idea|admin  \nCancel update: cancel"

/-- The cancel branch: clear `pending_update` (and save) only when the
person has a session in the unpruned state; always reply. -/
def cancelStep (env : HandlerEnv) (msg : InboundMessage) (stateFile : AppState)
    (ids : List String) : DispatchResult :=
  match alFind? (alGetD stateFile msg.roomId []) msg.personId with
  | some ps =>
    { branch := .cancel, reply := some "Update canceled.",
      savedState := some (alSet stateFile msg.roomId
        (alSet (alGetD stateFile msg.roomId []) msg.personId
          { ps with pendingUpdate := none, updatedAt := env.now })),
      updateCall := none, enqueued := none, processedAfter := ids,
      body := .updateCanceled }
  | none =>
    { branch := .cancel, reply := some "Update canceled.", savedState := none,
      updateCall := none, enqueued := none, processedAfter := ids,
      body := .updateCanceled }

/-- The awaiting-value branch: the raw message text becomes the new value of
the pinned `field_key`. -/
def awaitingValueStep (env : HandlerEnv) (msg : InboundMessage) (state : AppState)
    (roomState : RoomState) (personState : PersonState) (p : PendingUpdate)
    (ids : List String) : DispatchResult :=
  let fieldKey := p.fieldKey.getD ""
  let fieldName := p.fieldName.getD fieldKey
  let record := env.updateRecordResult p.category p.recordId [(fieldKey, msg.text)]
  let ps' := { personState with pendingUpdate := none, updatedAt := env.now }
  { branch := .awaitingValue,
    reply := some ("Updated " ++ record.title ++ " — " ++ fieldName ++ " set to '" ++
      msg.text ++ "'."),
    savedState := some (alSet state msg.roomId (alSet roomState msg.personId ps')),
    updateCall := some (p.category, p.recordId, [(fieldKey, msg.text)]),
    enqueued := none, processedAfter := ids, body := .updated }

/-- The pending field-selection branch: parse `<n>` or `<n> <value>` against
the pending field menu. -/
def fieldSelectionStep (env : HandlerEnv) (msg : InboundMessage) (state : AppState)
    (roomState : RoomState) (personState : PersonState) (p : PendingUpdate)
    (ids : List String) : DispatchResult :=
  match parseFieldSelection env.botName msg.text with
  | (none, _) =>
    { branch := .fieldSelection,
      reply := some "Reply with a field number (e.g., `2`) or `2 New Value`.",
      savedState := none, updateCall := none, enqueued := none,
      processedAfter := ids, body := .awaitingFieldSelection }
  | (some n, valueOpt) =>
    if n < 1 ∨ n > p.fields.length then
      { branch := .fieldSelection,
        reply := some "That number is out of range. Try again.",
        savedState := none, updateCall := none, enqueued := none,
        processedAfter := ids, body := .fieldSelectionOutOfRange }
    else
      let field := p.fields.getD (n - 1) { key := "", name := "" }
      match valueOpt with
      | none =>
        let p' :=
          { p with
            fieldKey := some field.key, fieldName := some field.name,
            awaitingValue := true }
        let ps' := { personState with pendingUpdate := some p', updatedAt := env.now }
        { branch := .fieldSelection,
          reply := some ("Send the new value for " ++ field.name ++ "."),
          savedState := some (alSet state msg.roomId (alSet roomState msg.personId ps')),
          updateCall := none, enqueued := none, processedAfter := ids,
          body := .awaitingUpdateValue }
      | some v =>
        let record := env.updateRecordResult p.category p.recordId [(field.key, v)]
        let ps' := { personState with pendingUpdate := none, updatedAt := env.now }
        { branch := .fieldSelection,
          reply := some ("Updated " ++ record.title ++ " — " ++ field.name ++
            " set to '" ++ v ++ "'."),
          savedState := some (alSet state msg.roomId (alSet roomState msg.personId ps')),
          updateCall := some (p.category, p.recordId, [(field.key, v)]),
          enqueued := none, processedAfter := ids, body := .updated }

/-- The update-request branch: `update <n>` against the `last_list`
snapshot; in range, post the field menu and create `pending_update`. -/
def updateRequestStep (env : HandlerEnv) (msg : InboundMessage) (state : AppState)
    (roomState : RoomState) (personState : PersonState) (n : Nat)
    (ids : List String) : DispatchResult :=
  let lastList := personState.lastList
  if lastList = [] then
    { branch := .updateRequest,
      reply := some "No recent list found. Send `next`, `today`, or `week` first.",
      savedState := none, updateCall := none, enqueued := none,
      processedAfter := ids, body := .missingList }
  else if n < 1 ∨ n > lastList.length then
    { branch := .updateRequest,
      reply := some "That number is out of range. Try again.",
      savedState := none, updateCall := none, enqueued := none,
      processedAfter := ids, body := .updateSelectionOutOfRange }
  else
    let selected := lastList.getD (n - 1)
      { recordId := "", category := "", title := "", fields := [] }
    let options := buildFieldOptions selected (env.propertyMap selected.category)
    let lines := ("Choose a field to update for " ++ selected.title ++ ":") ::
      (List.enumFrom 1 options).map (fieldMenuLine selected)
    let ps' : PersonState :=
      { updatedAt := env.now, lastList := lastList,
        pendingUpdate := some
          { recordId := selected.recordId, category := selected.category,
            fields := options, awaitingValue := false, fieldKey := none,
            fieldName := none } }
    { branch := .updateRequest,
      reply := some (String.intercalate "\n" lines),
      savedState := some (alSet state msg.roomId (alSet roomState msg.personId ps')),
      updateCall := none, enqueued := none, processedAfter := ids,
      body := .updatePromptSent }

/-- The command branch: `help` text, or a digest list for week/today/next. -/
def commandStep (env : HandlerEnv) (msg : InboundMessage) (stateFile : AppState)
    (cmd : String) (ids : List String) : DispatchResult :=
  if cmd = "help" then
    { branch := .command, reply := some HELP_TEXT, savedState := none,
      updateCall := none, enqueued := none, processedAfter := ids,
      body := .helpSent }
  else if cmd = "week" then
    let r := sendDigestList env msg.roomId msg.personId 7 "[SB DIGEST] This Week" stateFile
    { branch := .command, reply := some r.1, savedState := some r.2,
      updateCall := none, enqueued := none, processedAfter := ids,
      body := .weeklyDigestSent }
  else if cmd = "today" then
    let r := sendDigestList env msg.roomId msg.personId 1 "[SB DIGEST] Today" stateFile
    { branch := .command, reply := some r.1, savedState := some r.2,
      updateCall := none, enqueued := none, processedAfter := ids,
      body := .dailyDigestSent }
  else
    let r := sendDigestList env msg.roomId msg.personId 14 "[SB DIGEST] Next Focus" stateFile
    { branch := .command, reply := some r.1, savedState := some r.2,
      updateCall := none, enqueued := none, processedAfter := ids,
      body := .nextDigestSent }

/-- The `fix:` reply branch: re-queue the parent message's text with the
corrected category as a label. -/
def fixStep (env : HandlerEnv) (msg : InboundMessage) (fixCategory : String)
    (ids : List String) : DispatchResult :=
  match msg.parentId with
  | none =>
    { branch := .fixReply, reply := none, savedState := none, updateCall := none,
      enqueued := none, processedAfter := ids, body := .fixMissingParent }
  | some parentId =>
    let originalText := pyStrip (env.parentText parentId)
    if originalText = "" then
      { branch := .fixReply, reply := none, savedState := none, updateCall := none,
        enqueued := none, processedAfter := ids, body := .fixMissingOriginalText }
    else
      let processed := if env.runPipelineFlag then env.pipelineCount else 0
      { branch := .fixReply, reply := none, savedState := none, updateCall := none,
        enqueued := some (fixCategory ++ ": " ++ originalText),
        processedAfter := ids, body := .fixed processed }

/-- The default branch: record the message id in the processed-id set (when
absent), enqueue the raw text, optionally auto-run the Filing Pipeline. -/
def defaultStep (env : HandlerEnv) (msg : InboundMessage) (ids : List String) :
    DispatchResult :=
  let ids' := if msg.messageId ∈ ids then ids else msg.messageId :: ids
  let processed := if env.runPipelineFlag then env.pipelineCount else 0
  { branch := .defaultCapture, reply := none, savedState := none, updateCall := none,
    enqueued := some msg.text, processedAfter := ids', body := .queued processed }

/-- The person's pruned session as read by the non-cancel branches. -/
def personOf (env : HandlerEnv) (msg : InboundMessage) (stateFile : AppState) :
    PersonState :=
  alGetD (alGetD (pruneState env.now stateFile) msg.roomId []) msg.personId
    emptyPersonState

/-- The text-dispatch portion of `handler` in lambda_handler.py: the chain
of early-returning branches tried per inbound message, in source order. -/
def handleText (env : HandlerEnv) (msg : InboundMessage) (stateFile : AppState)
    (ids : List String) : DispatchResult :=
  if isCancelText env.botName msg.text then cancelStep env msg stateFile ids
  else
    match (personOf env msg stateFile).pendingUpdate with
    | some p =>
      if p.awaitingValue && fieldKeyTruthy p.fieldKey then
        awaitingValueStep env msg (pruneState env.now stateFile)
          (alGetD (pruneState env.now stateFile) msg.roomId [])
          (personOf env msg stateFile) p ids
      else
        fieldSelectionStep env msg (pruneState env.now stateFile)
          (alGetD (pruneState env.now stateFile) msg.roomId [])
          (personOf env msg stateFile) p ids
    | none =>
      match parseUpdateRequest env.botName msg.text with
      | some n =>
        updateRequestStep env msg (pruneState env.now stateFile)
          (alGetD (pruneState env.now stateFile) msg.roomId [])
          (personOf env msg stateFile) n ids
      | none =>
        match parseCommand env.botName msg.text with
        | some cmd => commandStep env msg stateFile cmd ids
        | none =>
          match parseFixCategory msg.text with
          | some c => fixStep env msg c ids
          | none => defaultStep env msg ids

/-- Dispatch order exactly as the specification words it: cancel-check, then
pending-update awaiting-value, then pending-update field-selection, then
update-request, then command, then fix-reply, then the default capture
branch — the first guard that applies decides the branch. -/
def dispatchOrderSpec (env : HandlerEnv) (msg : InboundMessage)
    (stateFile : AppState) : DispatchBranch :=
  if isCancelText env.botName msg.text then .cancel
  else if (match (personOf env msg stateFile).pendingUpdate with
    | some p => p.awaitingValue && fieldKeyTruthy p.fieldKey
    | none => false) then .awaitingValue
  else if (personOf env msg stateFile).pendingUpdate.isSome then .fieldSelection
  else if (parseUpdateRequest env.botName msg.text).isSome then .updateRequest
  else if (parseCommand env.botName msg.text).isSome then .command
  else if (parseFixCategory msg.text).isSome then .fixReply
  else .defaultCapture

/-! ### Dispatch theorems (claims C4, C5, C8, C10) -/

theorem cancelStep_branch (env : HandlerEnv) (msg : InboundMessage)
    (stateFile : AppState) (ids : List String) :
    (cancelStep env msg stateFile ids).branch = .cancel := by
  unfold cancelStep
  cases alFind? (alGetD stateFile msg.roomId []) msg.personId <;> rfl

theorem awaitingValueStep_branch (env : HandlerEnv) (msg : InboundMessage)
    (state : AppState) (roomState : RoomState) (personState : PersonState)
    (p : PendingUpdate) (ids : List String) :
    (awaitingValueStep env msg state roomState personState p ids).branch =
      .awaitingValue := rfl

theorem fieldSelectionStep_branch (env : HandlerEnv) (msg : InboundMessage)
    (state : AppState) (roomState : RoomState) (personState : PersonState)
    (p : PendingUpdate) (ids : List String) :
    (fieldSelectionStep env msg state roomState personState p ids).branch =
      .fieldSelection := by
  unfold fieldSelectionStep
  rcases parseFieldSelection env.botName msg.text with ⟨_ | n, vo⟩
  · rfl
  · simp only
    split
    · rfl
    · cases vo <;> rfl

theorem updateRequestStep_branch (env : HandlerEnv) (msg : InboundMessage)
    (state : AppState) (roomState : RoomState) (personState : PersonState)
    (n : Nat) (ids : List String) :
    (updateRequestStep env msg state roomState personState n ids).branch =
      .updateRequest := by
  unfold updateRequestStep
  dsimp only
  split
  · rfl
  · split <;> rfl

theorem commandStep_branch (env : HandlerEnv) (msg : InboundMessage)
    (stateFile : AppState) (cmd : String) (ids : List String) :
    (commandStep env msg stateFile cmd ids).branch = .command := by
  unfold commandStep
  split
  · rfl
  · split
    · rfl
    · split <;> rfl

theorem fixStep_branch (env : HandlerEnv) (msg : InboundMessage)
    (c : String) (ids : List String) :
    (fixStep env msg c ids).branch = .fixReply := by
  unfold fixStep
  cases msg.parentId
  · rfl
  · simp only
    split <;> rfl

theorem defaultStep_branch (env : HandlerEnv) (msg : InboundMessage)
    (ids : List String) :
    (defaultStep env msg ids).branch = .defaultCapture := rfl

/-- C5: the handler's text dispatch takes exactly the branch given by the
specified first-match order: cancel-check, pending-update awaiting-value,
pending-update field-selection, update-request, command, fix-reply, default
capture. -/
theorem webhook_dispatch_order (env : HandlerEnv) (msg : InboundMessage)
    (stateFile : AppState) (ids : List String) :
    (handleText env msg stateFile ids).branch = dispatchOrderSpec env msg stateFile := by
  unfold handleText dispatchOrderSpec
  cases hc : isCancelText env.botName msg.text
  · simp only [Bool.false_eq_true, if_false]
    cases hp : (personOf env msg stateFile).pendingUpdate with
    | some p =>
      simp only [Option.isSome_some]
      cases hg : p.awaitingValue && fieldKeyTruthy p.fieldKey
      · simp only [Bool.false_eq_true, if_false, if_true]
        exact fieldSelectionStep_branch env msg _ _ _ p ids
      · simp only [if_true]
        exact awaitingValueStep_branch env msg _ _ _ p ids
    | none =>
      simp only [Option.isSome_none, Bool.false_eq_true, if_false]
      cases hu : parseUpdateRequest env.botName msg.text with
      | some n =>
        simp only [Option.isSome_some, if_true]
        exact updateRequestStep_branch env msg _ _ _ n ids
      | none =>
        simp only [Option.isSome_none, Bool.false_eq_true, if_false]
        cases hcm : parseCommand env.botName msg.text with
        | some cmd =>
          simp only [Option.isSome_some, if_true]
          exact commandStep_branch env msg stateFile cmd ids
        | none =>
          simp only [Option.isSome_none, Bool.false_eq_true, if_false]
          cases hf : parseFixCategory msg.text with
          | some c =>
            simp only [Option.isSome_some, if_true]
            exact fixStep_branch env msg c ids
          | none =>
            simp only [Option.isSome_none, Bool.false_eq_true, if_false]
            exact defaultStep_branch env msg ids
  · simp only [if_true]
    exact cancelStep_branch env msg stateFile ids

theorem isCancelText_parseUpdateRequest (botName text : String)
    (h : isCancelText botName text = true) :
    parseUpdateRequest botName text = none := by
  unfold isCancelText at h
  rw [Bool.or_eq_true, decide_eq_true_eq, decide_eq_true_eq] at h
  unfold parseUpdateRequest
  rcases h with h | h <;> rw [h] <;> decide

theorem parseUpdateRequest_isCancelText_false (botName text : String) (n : Nat)
    (h : parseUpdateRequest botName text = some n) :
    isCancelText botName text = false := by
  cases hc : isCancelText botName text
  · rfl
  · rw [isCancelText_parseUpdateRequest botName text hc] at h
    exact Option.noConfusion h

/-- C4: an `update <n>` message with `n` outside `1..|last_list|`, sent with
a non-empty `last_list` and no `pending_update`, produces only the
corrective out-of-range reply: the state file is not rewritten (so
`last_list`, `pending_update` and the persisted session are unchanged and no
`pending_update` is created), nothing is stored or enqueued, and the
processed-id set is untouched. -/
theorem update_out_of_range_unchanged (env : HandlerEnv) (msg : InboundMessage)
    (stateFile : AppState) (ids : List String) (n : Nat)
    (hn : parseUpdateRequest env.botName msg.text = some n)
    (hpending : (personOf env msg stateFile).pendingUpdate = none)
    (hlist : (personOf env msg stateFile).lastList ≠ [])
    (hrange : n < 1 ∨ n > (personOf env msg stateFile).lastList.length) :
    handleText env msg stateFile ids =
      { branch := .updateRequest,
        reply := some "That number is out of range. Try again.",
        savedState := none, updateCall := none, enqueued := none,
        processedAfter := ids, body := .updateSelectionOutOfRange } := by
  unfold handleText
  rw [parseUpdateRequest_isCancelText_false env.botName msg.text n hn]
  simp only [Bool.false_eq_true, if_false, hpending, hn]
  unfold updateRequestStep
  dsimp only
  rw [if_neg hlist, if_pos hrange]

/-- A concrete dispatch environment for the handler witnesses. -/
def sampleHandlerEnv : HandlerEnv where
  botName := ""
  now := 1000000
  propertyMap := fun _ => []
  listRecords := fun _ => []
  updateRecordResult := fun c rid f =>
    { category := c, recordId := rid, title := "T", fields := f, createdAt := 0 }
  parentText := fun _ => ""
  runPipelineFlag := false
  pipelineCount := 0

/-- A session file with one fresh person holding a one-item list and no
pending update. -/
def sampleStateFileC4 : AppState :=
  [("room1",
    [("person1",
      { updatedAt := 1000000,
        lastList := [{ recordId := "r1", category := "projects", title := "Ship",
                       fields := [] }],
        pendingUpdate := none })])]

/-- An out-of-range `update 99` message. -/
def sampleUpdateMsg : InboundMessage where
  messageId := "m4"
  roomId := "room1"
  personId := "person1"
  text := "update 99"
  parentId := none

theorem update_out_of_range_unchanged_witness :
    parseUpdateRequest sampleHandlerEnv.botName sampleUpdateMsg.text = some 99 ∧
    (personOf sampleHandlerEnv sampleUpdateMsg sampleStateFileC4).pendingUpdate = none ∧
    (personOf sampleHandlerEnv sampleUpdateMsg sampleStateFileC4).lastList ≠ [] ∧
    (99 < 1 ∨
      99 > (personOf sampleHandlerEnv sampleUpdateMsg sampleStateFileC4).lastList.length) ∧
    handleText sampleHandlerEnv sampleUpdateMsg sampleStateFileC4 ["seen"] =
      { branch := .updateRequest,
        reply := some "That number is out of range. Try again.",
        savedState := none, updateCall := none, enqueued := none,
        processedAfter := ["seen"], body := .updateSelectionOutOfRange } :=
  ⟨by decide, by decide, by decide, by decide,
    update_out_of_range_unchanged sampleHandlerEnv sampleUpdateMsg sampleStateFileC4
      ["seen"] 99 (by decide) (by decide) (by decide) (by decide)⟩

/-- C10: a pending update with `awaiting_value` set but a missing or empty
`field_key` does not apply the incoming message as a new field value:
dispatch falls through to the field-selection branch, whose unparseable and
out-of-range inputs produce only corrective replies with no state write. -/
theorem awaiting_value_without_key_falls_through (env : HandlerEnv)
    (msg : InboundMessage) (stateFile : AppState) (ids : List String)
    (p : PendingUpdate)
    (hc : isCancelText env.botName msg.text = false)
    (hp : (personOf env msg stateFile).pendingUpdate = some p)
    (haw : p.awaitingValue = true)
    (hkey : fieldKeyTruthy p.fieldKey = false) :
    handleText env msg stateFile ids =
      fieldSelectionStep env msg (pruneState env.now stateFile)
        (alGetD (pruneState env.now stateFile) msg.roomId [])
        (personOf env msg stateFile) p ids ∧
    (handleText env msg stateFile ids).branch = .fieldSelection ∧
    ((parseFieldSelection env.botName msg.text).1 = none →
      handleText env msg stateFile ids =
        { branch := .fieldSelection,
          reply := some "Reply with a field number (e.g., `2`) or `2 New Value`.",
          savedState := none, updateCall := none, enqueued := none,
          processedAfter := ids, body := .awaitingFieldSelection }) ∧
    (∀ k vo, parseFieldSelection env.botName msg.text = (some k, vo) →
      (k < 1 ∨ k > p.fields.length) →
      handleText env msg stateFile ids =
        { branch := .fieldSelection,
          reply := some "That number is out of range. Try again.",
          savedState := none, updateCall := none, enqueued := none,
          processedAfter := ids, body := .fieldSelectionOutOfRange }) := by
  have hmain : handleText env msg stateFile ids =
      fieldSelectionStep env msg (pruneState env.now stateFile)
        (alGetD (pruneState env.now stateFile) msg.roomId [])
        (personOf env msg stateFile) p ids := by
    unfold handleText
    rw [hc]
    simp only [Bool.false_eq_true, if_false, hp]
    rw [haw, hkey]
    rfl
  refine ⟨hmain, ?_, ?_, ?_⟩
  · rw [hmain]
    exact fieldSelectionStep_branch env msg _ _ _ p ids
  · intro hparse
    rw [hmain]
    unfold fieldSelectionStep
    have hpair : parseFieldSelection env.botName msg.text =
        (none, (parseFieldSelection env.botName msg.text).2) := by
      rw [← hparse]
    rw [hpair]
  · intro k vo hparse hrange
    rw [hmain]
    unfold fieldSelectionStep
    rw [hparse]
    dsimp only
    rw [if_pos hrange]

/-- A pending update awaiting a value with no pinned field key. -/
def samplePendingNoKey : PendingUpdate where
  recordId := "r1"
  category := "projects"
  fields := [{ key := "Status", name := "Status" }]
  awaitingValue := true
  fieldKey := none
  fieldName := none

/-- A session file whose person is awaiting a value without a field key. -/
def sampleStateFileC10 : AppState :=
  [("room1",
    [("person1",
      { updatedAt := 1000000,
        lastList := [{ recordId := "r1", category := "projects", title := "Ship",
                       fields := [] }],
        pendingUpdate := some samplePendingNoKey })])]

/-- A plain (non-numeric) message sent while a value is awaited. -/
def sampleMsgXyz : InboundMessage where
  messageId := "m5"
  roomId := "room1"
  personId := "person1"
  text := "xyz"
  parentId := none

theorem awaiting_value_without_key_falls_through_witness :
    isCancelText sampleHandlerEnv.botName sampleMsgXyz.text = false ∧
    (personOf sampleHandlerEnv sampleMsgXyz sampleStateFileC10).pendingUpdate =
      some samplePendingNoKey ∧
    samplePendingNoKey.awaitingValue = true ∧
    fieldKeyTruthy samplePendingNoKey.fieldKey = false ∧
    (handleText sampleHandlerEnv sampleMsgXyz sampleStateFileC10 [] =
      fieldSelectionStep sampleHandlerEnv sampleMsgXyz
        (pruneState sampleHandlerEnv.now sampleStateFileC10)
        (alGetD (pruneState sampleHandlerEnv.now sampleStateFileC10)
          sampleMsgXyz.roomId [])
        (personOf sampleHandlerEnv sampleMsgXyz sampleStateFileC10)
        samplePendingNoKey [] ∧
    (handleText sampleHandlerEnv sampleMsgXyz sampleStateFileC10 []).branch =
      .fieldSelection ∧
    ((parseFieldSelection sampleHandlerEnv.botName sampleMsgXyz.text).1 = none →
      handleText sampleHandlerEnv sampleMsgXyz sampleStateFileC10 [] =
        { branch := .fieldSelection,
          reply := some "Reply with a field number (e.g., `2`) or `2 New Value`.",
          savedState := none, updateCall := none, enqueued := none,
          processedAfter := [], body := .awaitingFieldSelection }) ∧
    (∀ k vo, parseFieldSelection sampleHandlerEnv.botName sampleMsgXyz.text =
        (some k, vo) →
      (k < 1 ∨ k > samplePendingNoKey.fields.length) →
      handleText sampleHandlerEnv sampleMsgXyz sampleStateFileC10 [] =
        { branch := .fieldSelection,
          reply := some "That number is out of range. Try again.",
          savedState := none, updateCall := none, enqueued := none,
          processedAfter := [], body := .fieldSelectionOutOfRange })) :=
  ⟨by decide, by decide, rfl, rfl,
    awaiting_value_without_key_falls_through sampleHandlerEnv sampleMsgXyz
      sampleStateFileC10 [] samplePendingNoKey (by decide) (by decide) rfl rfl⟩

/-- A dispatch result with the processed-id set blanked, for comparing
everything except the set. -/
def eraseIds (r : DispatchResult) : DispatchResult := { r with processedAfter := [] }

theorem eraseIds_cancelStep (env : HandlerEnv) (msg : InboundMessage)
    (stateFile : AppState) (ids₁ ids₂ : List String) :
    eraseIds (cancelStep env msg stateFile ids₁) =
      eraseIds (cancelStep env msg stateFile ids₂) := by
  unfold cancelStep
  cases alFind? (alGetD stateFile msg.roomId []) msg.personId <;> rfl

theorem eraseIds_fieldSelectionStep (env : HandlerEnv) (msg : InboundMessage)
    (state : AppState) (roomState : RoomState) (personState : PersonState)
    (p : PendingUpdate) (ids₁ ids₂ : List String) :
    eraseIds (fieldSelectionStep env msg state roomState personState p ids₁) =
      eraseIds (fieldSelectionStep env msg state roomState personState p ids₂) := by
  unfold fieldSelectionStep
  rcases parseFieldSelection env.botName msg.text with ⟨_ | n, vo⟩
  · rfl
  · simp only
    split
    · rfl
    · cases vo <;> rfl

theorem eraseIds_updateRequestStep (env : HandlerEnv) (msg : InboundMessage)
    (state : AppState) (roomState : RoomState) (personState : PersonState)
    (n : Nat) (ids₁ ids₂ : List String) :
    eraseIds (updateRequestStep env msg state roomState personState n ids₁) =
      eraseIds (updateRequestStep env msg state roomState personState n ids₂) := by
  unfold updateRequestStep
  dsimp only
  split
  · rfl
  · split <;> rfl

theorem eraseIds_commandStep (env : HandlerEnv) (msg : InboundMessage)
    (stateFile : AppState) (cmd : String) (ids₁ ids₂ : List String) :
    eraseIds (commandStep env msg stateFile cmd ids₁) =
      eraseIds (commandStep env msg stateFile cmd ids₂) := by
  unfold commandStep
  split
  · rfl
  · split
    · rfl
    · split <;> rfl

theorem eraseIds_fixStep (env : HandlerEnv) (msg : InboundMessage)
    (c : String) (ids₁ ids₂ : List String) :
    eraseIds (fixStep env msg c ids₁) = eraseIds (fixStep env msg c ids₂) := by
  unfold fixStep
  cases msg.parentId
  · rfl
  · simp only
    split <;> rfl

theorem cancelStep_processedAfter (env : HandlerEnv) (msg : InboundMessage)
    (stateFile : AppState) (ids : List String) :
    (cancelStep env msg stateFile ids).processedAfter = ids := by
  unfold cancelStep
  cases alFind? (alGetD stateFile msg.roomId []) msg.personId <;> rfl

theorem fieldSelectionStep_processedAfter (env : HandlerEnv) (msg : InboundMessage)
    (state : AppState) (roomState : RoomState) (personState : PersonState)
    (p : PendingUpdate) (ids : List String) :
    (fieldSelectionStep env msg state roomState personState p ids).processedAfter =
      ids := by
  unfold fieldSelectionStep
  rcases parseFieldSelection env.botName msg.text with ⟨_ | n, vo⟩
  · rfl
  · simp only
    split
    · rfl
    · cases vo <;> rfl

theorem updateRequestStep_processedAfter (env : HandlerEnv) (msg : InboundMessage)
    (state : AppState) (roomState : RoomState) (personState : PersonState)
    (n : Nat) (ids : List String) :
    (updateRequestStep env msg state roomState personState n ids).processedAfter =
      ids := by
  unfold updateRequestStep
  dsimp only
  split
  · rfl
  · split <;> rfl

theorem commandStep_processedAfter (env : HandlerEnv) (msg : InboundMessage)
    (stateFile : AppState) (cmd : String) (ids : List String) :
    (commandStep env msg stateFile cmd ids).processedAfter = ids := by
  unfold commandStep
  split
  · rfl
  · split
    · rfl
    · split <;> rfl

theorem fixStep_processedAfter (env : HandlerEnv) (msg : InboundMessage)
    (c : String) (ids : List String) :
    (fixStep env msg c ids).processedAfter = ids := by
  unfold fixStep
  cases msg.parentId
  · rfl
  · simp only
    split <;> rfl

set_option maxHeartbeats 1600000 in
/-- C8 (amended): the dispatch outcome — branch, reply, saved state, storage
update, enqueued text, body — never depends on the processed-id set, so a
duplicate delivery is handled exactly like the first and is never
short-circuited; the message id is recorded in the set exactly when the
message reaches the default capture branch, and the set is untouched on
every other branch. -/
theorem processed_ids_do_not_gate_dispatch (env : HandlerEnv) (msg : InboundMessage)
    (stateFile : AppState) (ids₁ ids₂ : List String) :
    eraseIds (handleText env msg stateFile ids₁) =
      eraseIds (handleText env msg stateFile ids₂) ∧
    ((handleText env msg stateFile ids₁).branch = .defaultCapture →
      msg.messageId ∈ (handleText env msg stateFile ids₁).processedAfter) ∧
    ((handleText env msg stateFile ids₁).branch ≠ .defaultCapture →
      (handleText env msg stateFile ids₁).processedAfter = ids₁) := by
  unfold handleText
  by_cases hc : isCancelText env.botName msg.text = true
  · simp only [if_pos hc]
    refine ⟨eraseIds_cancelStep env msg stateFile ids₁ ids₂, ?_, ?_⟩
    · intro hb
      rw [cancelStep_branch] at hb
      exact absurd hb (by decide)
    · intro _
      exact cancelStep_processedAfter env msg stateFile ids₁
  · simp only [if_neg hc]
    cases hp : (personOf env msg stateFile).pendingUpdate with
    | some p =>
      simp only [hp]
      by_cases hg : (p.awaitingValue && fieldKeyTruthy p.fieldKey) = true
      · simp only [if_pos hg]
        refine ⟨rfl, ?_, fun _ => rfl⟩
        intro hb
        rw [awaitingValueStep_branch] at hb
        exact absurd hb (by decide)
      · simp only [if_neg hg]
        refine ⟨eraseIds_fieldSelectionStep env msg _ _ _ p ids₁ ids₂, ?_, ?_⟩
        · intro hb
          rw [fieldSelectionStep_branch] at hb
          exact absurd hb (by decide)
        · intro _
          exact fieldSelectionStep_processedAfter env msg _ _ _ p ids₁
    | none =>
      simp only [hp]
      cases hu : parseUpdateRequest env.botName msg.text with
      | some n =>
        simp only [hu]
        refine ⟨eraseIds_updateRequestStep env msg _ _ _ n ids₁ ids₂, ?_, ?_⟩
        · intro hb
          rw [updateRequestStep_branch] at hb
          exact absurd hb (by decide)
        · intro _
          exact updateRequestStep_processedAfter env msg _ _ _ n ids₁
      | none =>
        simp only [hu]
        cases hcm : parseCommand env.botName msg.text with
        | some cmd =>
          simp only [hcm]
          refine ⟨eraseIds_commandStep env msg stateFile cmd ids₁ ids₂, ?_, ?_⟩
          · intro hb
            rw [commandStep_branch] at hb
            exact absurd hb (by decide)
          · intro _
            exact commandStep_processedAfter env msg stateFile cmd ids₁
        | none =>
          simp only [hcm]
          cases hf : parseFixCategory msg.text with
          | some c =>
            simp only [hf]
            refine ⟨eraseIds_fixStep env msg c ids₁ ids₂, ?_, ?_⟩
            · intro hb
              rw [fixStep_branch] at hb
              exact absurd hb (by decide)
            · intro _
              exact fixStep_processedAfter env msg c ids₁
          | none =>
            simp only [hf]
            refine ⟨rfl, fun _ => ?_, fun hne => absurd rfl hne⟩
            unfold defaultStep
            dsimp only
            by_cases hm : msg.messageId ∈ ids₁
            · rw [if_pos hm]
              exact hm
            · rw [if_neg hm]
              exact List.mem_cons_self _ _

/-- A `help` command delivery. -/
def sampleHelpMsg : InboundMessage where
  messageId := "m2"
  roomId := "room1"
  personId := "person1"
  text := "help"
  parentId := none

/-- A plain capture delivery reaching the default branch. -/
def sampleCaptureMsg : InboundMessage where
  messageId := "m3"
  roomId := "room1"
  personId := "person1"
  text := "remember the milk"
  parentId := none

/-- C8 counterexample: a delivery handled by the command branch (`help`) is
fully processed, yet its message id is never recorded in the processed-id
set — so the id is not recorded for every delivery. -/
theorem processed_id_not_recorded_on_command :
    (handleText sampleHandlerEnv sampleHelpMsg [] []).branch = .command ∧
    (handleText sampleHandlerEnv sampleHelpMsg [] []).processedAfter = [] ∧
    sampleHelpMsg.messageId ∉
      (handleText sampleHandlerEnv sampleHelpMsg [] []).processedAfter := by
  refine ⟨by decide, by decide, by decide⟩

theorem processed_ids_do_not_gate_dispatch_witness :
    eraseIds (handleText sampleHandlerEnv sampleCaptureMsg [] ["m3"]) =
      eraseIds (handleText sampleHandlerEnv sampleCaptureMsg [] []) ∧
    (handleText sampleHandlerEnv sampleCaptureMsg [] ["m3"]).branch =
      .defaultCapture ∧
    sampleCaptureMsg.messageId ∈
      (handleText sampleHandlerEnv sampleCaptureMsg [] ["m3"]).processedAfter :=
  ⟨(processed_ids_do_not_gate_dispatch sampleHandlerEnv sampleCaptureMsg [] ["m3"] []).1,
    by decide,
    (processed_ids_do_not_gate_dispatch sampleHandlerEnv sampleCaptureMsg [] ["m3"]
      []).2.1 (by decide)⟩
